import Mathlib

/-!
Shallow embedding of `twitter_bot_py.py`: a single-pass bot that loads a
JSON-backed message pool, selects a not-yet-used message at random,
authenticates to the publishing service, publishes the message, and
persists the used-message record.  File contents, the process
environment, the two network calls and the randomness draw are modelled
explicitly; file and network operations are recorded as an event trace.
-/

namespace TwitterBot

/-- JSON values, as produced by Python's `json.load`. -/
inductive Json where
  | null : Json
  | bool : Bool → Json
  | num : Int → Json
  | str : String → Json
  | arr : List Json → Json
  | obj : List (String × Json) → Json

/-- The backing file (`tweets.json`) as the program can observe it:
absent, present but not parseable JSON, or parsed JSON. -/
inductive FileContent where
  | missing : FileContent
  | invalid : FileContent
  | json : Json → FileContent

/-- File-system and network operations, recorded as a trace.
`fileRead` is an open-for-read attempt on the backing file (successful
or not), `fileWrite` a write of the backing file, `netAuth` the
authentication ("who am I") call, `netPost` the "create post" call. -/
inductive Event where
  | fileRead : Event
  | fileWrite : Event
  | netAuth : Event
  | netPost : Event
deriving DecidableEq

/-- Last-wins field lookup on a JSON object (Python dicts built by
`json.load` keep the last duplicate key); `none` when the value is not
an object. -/
def Json.getField : Json → String → Option Json
  | .obj kvs, k => (kvs.reverse.find? fun kv => kv.1 == k).map Prod.snd
  | _, _ => none

/-- Python `data.get(k, d)` on the parsed value `data`; the outer `none`
models the uncaught `AttributeError` when `data` is not a dict. -/
def Json.getD (j : Json) (k : String) (d : Json) : Option Json :=
  match j with
  | .obj kvs => some (((kvs.reverse.find? fun kv => kv.1 == k).map Prod.snd).getD d)
  | _ => none

/-- Python `data[k] = v` on a dict: replaces the value of an existing
key in place, otherwise appends the new key at the end; `none` models
the uncaught `TypeError` when `data` is not a dict. -/
def Json.setKey : Json → String → Json → Option Json
  | .obj kvs, k, v =>
    if kvs.any (fun kv => kv.1 == k) then
      some (.obj (kvs.map fun kv => if kv.1 == k then (kv.1, v) else kv))
    else
      some (.obj (kvs ++ [(k, v)]))
  | _, _, _ => none

/-- Python truthiness of a JSON value (`if not tweets:`). -/
def Json.falsy : Json → Bool
  | .null => true
  | .bool b => !b
  | .num n => n == 0
  | .str s => s == ""
  | .arr xs => xs.isEmpty
  | .obj kvs => kvs.isEmpty

/-- A JSON array of strings. -/
def strArr (xs : List String) : Json := .arr (xs.map .str)

/-- Read a list of JSON values back as strings; `none` when some entry
is not a string (such pools are not modelled further, see
`RunOutcome.unmodeled`). -/
def jsonStrs : List Json → Option (List String)
  | [] => some []
  | .str s :: rest => (jsonStrs rest).map (s :: ·)
  | _ :: _ => none

/-- A JSON value as a list of strings, when it is one. -/
def asStrList : Json → Option (List String)
  | .arr xs => jsonStrs xs
  | _ => none

/-- The fixed default message pool written by
`create_sample_tweets_file`; the strings appear byte-for-byte as in the
source file. -/
def default_pool : List String :=
  ["ðŸŒŸ Starting the day with gratitude! What are you thankful for today?",
   "ðŸ’¡ Remember: Progress, not perfection. Every small step counts!",
   "ðŸš€ Innovation happens when we dare to think differently.",
   "ðŸŒ± Growth mindset: Challenges are opportunities in disguise.",
   "â˜• Good morning! May your coffee be strong and your Monday be short.",
   "ðŸŽ¯ Focus on what you can control, let go of what you can\x27t.",
   "ðŸ“š Learning something new every day keeps the mind sharp!",
   "ðŸŒˆ After every storm comes a rainbow. Keep pushing forward!"]

/-- The object written by `create_sample_tweets_file`. -/
def sample_data : Json :=
  .obj [("tweets", strArr default_pool), ("used_tweets", .arr [])]

/-- `create_sample_tweets_file`: writes the sample object to the file. -/
def create_sample_tweets_file : FileContent × List Event :=
  (.json sample_data, [.fileWrite])

/-- `load_tweets`: returns `(tweets, used_tweets)` from the parsed file,
each field defaulting to an empty list; on `FileNotFoundError` creates
the sample file and returns two empty lists (the new file is not
re-read); on `json.JSONDecodeError` returns two empty lists.  The
`Option` is `none` when Python would crash with an uncaught
`AttributeError` (parsed JSON is not a dict). -/
def load_tweets : FileContent → Option (Json × Json) × FileContent × List Event
  | .json j =>
    (match j.getD "tweets" (.arr []), j.getD "used_tweets" (.arr []) with
     | some t, some u => some (t, u)
     | _, _ => none,
     .json j, [.fileRead])
  | .missing =>
    (some (.arr [], .arr []), create_sample_tweets_file.1,
     .fileRead :: create_sample_tweets_file.2)
  | .invalid => (some (.arr [], .arr []), .invalid, [.fileRead])

/-- `save_used_tweets`: re-reads the file (the bare `except:` substitutes
the empty base object on any read or parse failure), overwrites the
`used_tweets` key of the re-read object and rewrites the whole file.
`none` models the uncaught `TypeError` when the re-read JSON is not a
dict. -/
def save_used_tweets (used_tweets : List String) (fc : FileContent) :
    Option FileContent × List Event :=
  let data : Json :=
    match fc with
    | .json j => j
    | _ => .obj [("tweets", .arr []), ("used_tweets", .arr [])]
  match data.setKey "used_tweets" (strArr used_tweets) with
  | some d => (some (.json d), [.fileRead, .fileWrite])
  | none => (none, [.fileRead])

/-- The list comprehension of `main`:
`[t for t in tweets if t not in used_tweets]`. -/
def available_tweets (tweets used_tweets : List String) : List String :=
  tweets.filter fun t => !used_tweets.contains t

/-- The selection step of `main`: the available pool, resetting the used
list to empty when every pool element has been used. -/
def selector (tweets used_tweets : List String) : List String × List String :=
  if (available_tweets tweets used_tweets).isEmpty then (tweets, [])
  else (available_tweets tweets used_tweets, used_tweets)

/-- `random.choice`, given a randomness oracle `r` (a uniform draw picks
an arbitrary index); `none` models the `IndexError` on an empty
sequence. -/
def choice (xs : List String) (r : Nat) : Option String :=
  xs.get? (r % xs.length)

/-- The five required credential environment variables. -/
def required_vars : List String :=
  ["TWITTER_API_KEY", "TWITTER_API_SECRET", "TWITTER_ACCESS_TOKEN",
   "TWITTER_ACCESS_TOKEN_SECRET", "TWITTER_BEARER_TOKEN"]

/-- Python `not os.getenv(var)`: true when the variable is unset or set
to the empty string. -/
def falsyEnv : Option String → Bool
  | none => true
  | some s => s == ""

/-- The ambient state one run observes: the process environment, the
backing file, whether the authentication and publish network calls
would succeed, and the randomness oracle for `random.choice`. -/
structure World where
  env : String → Option String
  file : FileContent
  authOk : Bool
  publishOk : Bool
  rand : Nat

/-- How a run of `main` ends.  `crash` is an uncaught Python exception;
`unmodeled` marks runs whose pool or used list holds non-string
entries, which this embedding does not follow further. -/
inductive RunOutcome where
  | missingEnv : List String → RunOutcome
  | emptyPool : RunOutcome
  | authFailed : RunOutcome
  | publishFailed : RunOutcome
  | posted : String → RunOutcome
  | crash : RunOutcome
  | unmodeled : RunOutcome
deriving DecidableEq

/-- `main`: one whole run, returning the outcome, the final backing file
and the trace of file and network operations in order. -/
def main (w : World) : RunOutcome × FileContent × List Event :=
  let missing_vars := required_vars.filter fun v => falsyEnv (w.env v)
  if missing_vars.isEmpty then
    match load_tweets w.file with
    | (none, fc, ev) => (.crash, fc, ev)
    | (some (tweetsJ, usedJ), fc, ev) =>
      if tweetsJ.falsy then (.emptyPool, fc, ev)
      else
        match asStrList tweetsJ, asStrList usedJ with
        | some tweets, some used_tweets =>
          let sel := selector tweets used_tweets
          match choice sel.1 w.rand with
          | none => (.crash, fc, ev)
          | some selected_tweet =>
            if !w.authOk then (.authFailed, fc, ev ++ [.netAuth])
            else if !w.publishOk then
              (.publishFailed, fc, ev ++ [.netAuth, .netPost])
            else
              match save_used_tweets (sel.2 ++ [selected_tweet]) fc with
              | (some fc2, ev2) =>
                (.posted selected_tweet, fc2, ev ++ [.netAuth, .netPost] ++ ev2)
              | (none, ev2) => (.crash, fc, ev ++ [.netAuth, .netPost] ++ ev2)
        | _, _ => (.unmodeled, fc, ev)
  else (.missingEnv missing_vars, w.file, [])

/-- A well-formed backing file: a JSON object holding string-array
`tweets` and `used_tweets` fields. -/
def mkFile (pool used : List String) : FileContent :=
  .json (.obj [("tweets", strArr pool), ("used_tweets", strArr used)])

/-! ## Helper lemmas -/

lemma contains_eq_decide_mem (l : List String) (t : String) :
    l.contains t = decide (t ∈ l) := by
  simp [List.contains]

lemma available_tweets_eq (pool used : List String) :
    available_tweets pool used = pool.filter fun t => decide (t ∉ used) := by
  unfold available_tweets
  congr 1
  funext t
  simp [contains_eq_decide_mem, decide_not]

lemma jsonStrs_map_str (xs : List String) :
    jsonStrs (xs.map Json.str) = some xs := by
  induction xs with
  | nil => rfl
  | cons a as ih => simp [jsonStrs, ih]

lemma asStrList_strArr (xs : List String) : asStrList (strArr xs) = some xs := by
  simp [asStrList, strArr, jsonStrs_map_str]

lemma choice_mem (xs : List String) (r : Nat) (h : xs ≠ []) :
    ∃ m, choice xs r = some m ∧ m ∈ xs := by
  have hlen : 0 < xs.length := List.length_pos.mpr h
  have hlt : r % xs.length < xs.length := Nat.mod_lt _ hlen
  exact ⟨xs.get ⟨r % xs.length, hlt⟩, by simp [choice, List.get?_eq_get hlt],
    List.get_mem _ _ _⟩

lemma choice_mem_of_eq {xs : List String} {r : Nat} {m : String}
    (h : choice xs r = some m) : m ∈ xs :=
  List.get?_mem h

lemma selector_cases (pool used : List String) :
    (available_tweets pool used ≠ [] ∧
      selector pool used = (available_tweets pool used, used))
    ∨ (available_tweets pool used = [] ∧ selector pool used = (pool, [])) := by
  by_cases h : (available_tweets pool used).isEmpty
  · exact Or.inr ⟨List.isEmpty_iff.mp h, by simp [selector, h]⟩
  · exact Or.inl ⟨fun hn => h (List.isEmpty_iff.mpr hn), by simp [selector, h]⟩

lemma selector_fst_ne_nil (pool used : List String) (h : pool ≠ []) :
    (selector pool used).1 ≠ [] := by
  rcases selector_cases pool used with ⟨hne, hsel⟩ | ⟨_, hsel⟩ <;> rw [hsel]
  · exact hne
  · exact h

/-! ## Claims -/

/-- Claim C1: the selector computes the available pool as the pool
filtered to elements not present in the used set (membership by exact
string equality); when that filter is empty the used set is reset to
empty and the available pool becomes the full pool; the element drawn
is always a member of this available pool. -/
theorem C1_selector_available_pool (pool used : List String) (r : Nat)
    (h : pool ≠ []) :
    ((selector pool used).1 =
      if (pool.filter fun t => decide (t ∉ used)).isEmpty then pool
      else pool.filter fun t => decide (t ∉ used))
    ∧ ((selector pool used).2 =
      if (pool.filter fun t => decide (t ∉ used)).isEmpty then ([] : List String)
      else used)
    ∧ ∃ m, choice (selector pool used).1 r = some m
        ∧ m ∈ (selector pool used).1 := by
  refine ⟨?_, ?_, choice_mem _ r (selector_fst_ne_nil pool used h)⟩ <;>
    · unfold selector
      rw [available_tweets_eq]
      by_cases hc : (pool.filter fun t => decide (t ∉ used)).isEmpty = true <;>
        first
          | rw [if_pos hc, if_pos hc]
          | rw [if_neg hc, if_neg hc]

/-- Witness for C1 at pool `["A", "B"]`, used `["A"]`, oracle `0`. -/
theorem C1_witness :
    (["A", "B"] : List String) ≠ [] ∧
    (((selector ["A", "B"] ["A"]).1 =
      if ((["A", "B"] : List String).filter
            fun t => decide (t ∉ (["A"] : List String))).isEmpty then ["A", "B"]
      else (["A", "B"] : List String).filter
            fun t => decide (t ∉ (["A"] : List String)))
    ∧ ((selector ["A", "B"] ["A"]).2 =
      if ((["A", "B"] : List String).filter
            fun t => decide (t ∉ (["A"] : List String))).isEmpty
      then ([] : List String) else ["A"])
    ∧ ∃ m, choice (selector ["A", "B"] ["A"]).1 0 = some m
        ∧ m ∈ (selector ["A", "B"] ["A"]).1) :=
  ⟨by decide, C1_selector_available_pool ["A", "B"] ["A"] 0 (by decide)⟩

/-- Claim C2: while at least one pool element is not yet in the used
set, the selected message is never one already in the used set; and
with pool `["A", "B"]` and used `["A"]` the selector deterministically
chooses `"B"` whatever the randomness oracle. -/
theorem C2_no_repeat_before_exhaustion :
    (∀ pool used : List String, ∀ r : Nat, ∀ m : String,
      available_tweets pool used ≠ [] →
      choice (selector pool used).1 r = some m → m ∉ used)
    ∧ ∀ r : Nat, choice (selector ["A", "B"] ["A"]).1 r = some "B" := by
  constructor
  · intro pool used r m hne hm
    rcases selector_cases pool used with ⟨_, hsel⟩ | ⟨hnil, _⟩
    · have hmem : m ∈ available_tweets pool used := by
        have hx := choice_mem_of_eq hm
        rwa [hsel] at hx
      rw [available_tweets_eq] at hmem
      simpa using (List.mem_filter.mp hmem).2
    · exact absurd hnil hne
  · intro r
    have hsel : (selector ["A", "B"] ["A"]).1 = ["B"] := rfl
    rw [hsel]
    simp [choice, Nat.mod_one]

/-- Witness for C2 at pool `["A", "B"]`, used `["A"]`, oracle `0`. -/
theorem C2_witness :
    (available_tweets ["A", "B"] ["A"] ≠ [] ∧ ("B" : String) ∉ (["A"] : List String)) :=
  ⟨by decide,
    C2_no_repeat_before_exhaustion.1 ["A", "B"] ["A"] 0 "B" (by decide) (by decide)⟩

/-- Claim C5: a backing file that exists but is not parseable JSON makes
the loader return two empty lists, and the run then stops at the
empty-pool check: the file is unchanged and no network call or write
occurs. -/
theorem C5_invalid_file (env : String → Option String) (a p : Bool) (r : Nat)
    (henv : ∀ v ∈ required_vars, falsyEnv (env v) = false) :
    load_tweets .invalid = (some (.arr [], .arr []), .invalid, [.fileRead])
    ∧ main ⟨env, .invalid, a, p, r⟩ = (.emptyPool, .invalid, [.fileRead]) := by
  refine ⟨rfl, ?_⟩
  have hfil : required_vars.filter (fun v => falsyEnv (env v)) = [] :=
    List.filter_eq_nil_iff.mpr (fun v hv => by simp [henv v hv])
  simp [main, hfil, load_tweets, Json.falsy]

/-- Witness for C5 with every credential variable set to `"x"`. -/
theorem C5_witness :
    (∀ v ∈ required_vars, falsyEnv ((fun _ => some "x") v) = false)
    ∧ (load_tweets .invalid = (some (.arr [], .arr []), .invalid, [.fileRead])
      ∧ main ⟨fun _ => some "x", .invalid, true, true, 0⟩ =
          (.emptyPool, .invalid, [.fileRead])) :=
  ⟨by decide, C5_invalid_file (fun _ => some "x") true true 0 (by decide)⟩

/-- Claim C6: loading a nonexistent file creates it populated with the
fixed 8-message default pool and an empty used set, and that same
loader call returns two empty lists (the fresh file is not re-read). -/
theorem C6_bootstrap :
    load_tweets .missing =
      (some (.arr [], .arr []), .json sample_data, [.fileRead, .fileWrite])
    ∧ sample_data = .obj [("tweets", strArr default_pool), ("used_tweets", .arr [])]
    ∧ default_pool.length = 8 :=
  ⟨rfl, rfl, rfl⟩

lemma main_of_missing_var (w : World) (v : String)
    (hv : v ∈ required_vars) (hfal : falsyEnv (w.env v) = true) :
    main w = (.missingEnv (required_vars.filter fun u => falsyEnv (w.env u)),
              w.file, [])
    ∧ ∀ u ∈ required_vars, falsyEnv (w.env u) = true →
        u ∈ required_vars.filter fun u => falsyEnv (w.env u) := by
  have hne : (required_vars.filter fun u => falsyEnv (w.env u)) ≠ [] :=
    List.ne_nil_of_mem (List.mem_filter.mpr ⟨hv, hfal⟩)
  have hemp : (required_vars.filter fun u => falsyEnv (w.env u)).isEmpty = false :=
    Bool.eq_false_iff.mpr fun ht => hne (List.isEmpty_iff.mp ht)
  constructor
  · simp [main, hemp]
  · exact fun u hu hf => List.mem_filter.mpr ⟨hu, hf⟩

/-- Claim C7: when at least one required credential variable is absent
or empty, the run stops having performed no file or network operation,
the file is untouched, and every missing variable appears in the
reported list. -/
theorem C7_missing_env (w : World)
    (h : ∃ v ∈ required_vars, falsyEnv (w.env v) = true) :
    main w = (.missingEnv (required_vars.filter fun v => falsyEnv (w.env v)),
              w.file, [])
    ∧ ∀ v ∈ required_vars, falsyEnv (w.env v) = true →
        v ∈ required_vars.filter fun v => falsyEnv (w.env v) := by
  obtain ⟨v, hv, hfal⟩ := h
  exact main_of_missing_var w v hv hfal

/-- Witness for C7: `TWITTER_BEARER_TOKEN` unset, the others set. -/
theorem C7_witness :
    (∃ v ∈ required_vars,
      falsyEnv ((fun x => if x == "TWITTER_BEARER_TOKEN" then none else some "x")
        v) = true)
    ∧ main ⟨fun x => if x == "TWITTER_BEARER_TOKEN" then none else some "x",
            .missing, true, true, 0⟩ =
        (.missingEnv (required_vars.filter fun v =>
          falsyEnv ((fun x => if x == "TWITTER_BEARER_TOKEN" then none else some "x")
            v)),
         .missing, []) :=
  ⟨by decide,
    (C7_missing_env ⟨fun x => if x == "TWITTER_BEARER_TOKEN" then none else some "x",
      .missing, true, true, 0⟩ (by decide)).1⟩

/-- Claim C9: a required credential variable set to the empty string is
treated the same as an absent one: the truthiness check lists it as
missing and the run aborts with no file or network operation. -/
theorem C9_empty_string_env (w : World) (v : String)
    (hv : v ∈ required_vars) (hempty : w.env v = some "") :
    ∃ ms, main w = (.missingEnv ms, w.file, []) ∧ v ∈ ms := by
  have hfal : falsyEnv (w.env v) = true := by rw [hempty]; rfl
  obtain ⟨hmain, hmem⟩ := main_of_missing_var w v hv hfal
  exact ⟨_, hmain, hmem v hv hfal⟩

lemma replace_fst (k : String) (v : Json) (kv : String × Json) :
    (if kv.1 == k then (kv.1, v) else kv).1 = kv.1 := by
  split <;> rfl

lemma find?_pred_map_replace (l : List (String × Json)) (k k2 : String) (v : Json) :
    (l.map fun kv => if kv.1 == k then (kv.1, v) else kv).find?
        (fun kv => kv.1 == k2)
      = (l.find? fun kv => kv.1 == k2).map
          fun kv => if kv.1 == k then (kv.1, v) else kv := by
  rw [List.find?_map]
  have hpf : ((fun kv : String × Json => kv.1 == k2) ∘
        fun kv => if kv.1 == k then (kv.1, v) else kv)
      = fun kv : String × Json => kv.1 == k2 := by
    funext kv
    show ((if kv.1 == k then (kv.1, v) else kv).1 == k2) = (kv.1 == k2)
    rw [replace_fst]
  rw [hpf]

lemma getField_replace_self (kvs : List (String × Json)) (k : String) (v : Json)
    (h : kvs.any (fun kv => kv.1 == k) = true) :
    Json.getField (.obj (kvs.map fun kv => if kv.1 == k then (kv.1, v) else kv)) k
      = some v := by
  simp only [Json.getField]
  rw [← List.map_reverse, find?_pred_map_replace]
  have hsome : (kvs.reverse.find? fun kv => kv.1 == k).isSome := by
    rw [List.find?_isSome]
    obtain ⟨kv, hmem, hp⟩ := List.any_eq_true.mp h
    exact ⟨kv, List.mem_reverse.mpr hmem, hp⟩
  obtain ⟨kv, hfind⟩ := Option.isSome_iff_exists.mp hsome
  have hp := List.find?_some hfind
  have hk : kv.1 = k := by simpa using hp
  rw [hfind]
  simp [hp, hk]

lemma getField_replace_other (kvs : List (String × Json)) (k k2 : String)
    (v : Json) (hne : k2 ≠ k) :
    Json.getField (.obj (kvs.map fun kv => if kv.1 == k then (kv.1, v) else kv)) k2
      = Json.getField (.obj kvs) k2 := by
  simp only [Json.getField]
  rw [← List.map_reverse, find?_pred_map_replace]
  cases hfind : kvs.reverse.find? (fun kv => kv.1 == k2) with
  | none => rfl
  | some kv =>
    have hkv : kv.1 = k2 := by simpa using List.find?_some hfind
    have hfalse : (kv.1 == k) = false := by
      rw [hkv]
      exact beq_eq_false_iff_ne.mpr hne
    have hnk : ¬ kv.1 = k := by rw [hkv]; exact hne
    simp [hfalse, hnk]

lemma getField_append_self (kvs : List (String × Json)) (k : String) (v : Json) :
    Json.getField (.obj (kvs ++ [(k, v)])) k = some v := by
  simp only [Json.getField]
  rw [List.reverse_append]
  simp

lemma getField_append_other (kvs : List (String × Json)) (k k2 : String)
    (v : Json) (hne : k2 ≠ k) :
    Json.getField (.obj (kvs ++ [(k, v)])) k2 = Json.getField (.obj kvs) k2 := by
  simp only [Json.getField]
  rw [List.reverse_append]
  have hfalse : ((k, v).1 == k2) = false :=
    beq_eq_false_iff_ne.mpr fun hkk => hne hkk.symm
  simp [hfalse]

lemma setKey_getField (kvs : List (String × Json)) (k : String) (v : Json) :
    ∃ kvs2, Json.setKey (.obj kvs) k v = some (.obj kvs2)
      ∧ Json.getField (.obj kvs2) k = some v
      ∧ ∀ k2, k2 ≠ k →
          Json.getField (.obj kvs2) k2 = Json.getField (.obj kvs) k2 := by
  simp only [Json.setKey]
  by_cases h : kvs.any (fun kv => kv.1 == k) = true
  · rw [if_pos h]
    exact ⟨_, rfl, getField_replace_self kvs k v h,
      fun k2 hk2 => getField_replace_other kvs k k2 v hk2⟩
  · rw [if_neg h]
    exact ⟨_, rfl, getField_append_self kvs k v,
      fun k2 hk2 => getField_append_other kvs k k2 v hk2⟩

/-- Claim C8: the state writer re-reads the current file; when the
re-read fails (missing file, unparseable JSON) it starts from the empty
base object, then overwrites only the `used_tweets` field with the
given list and rewrites the whole file; on a readable object it
preserves the `tweets` field. -/
theorem C8_state_writer (used : List String) (kvs : List (String × Json)) :
    save_used_tweets used .missing =
      (some (.json (.obj [("tweets", .arr []), ("used_tweets", strArr used)])),
       [.fileRead, .fileWrite])
    ∧ save_used_tweets used .invalid =
      (some (.json (.obj [("tweets", .arr []), ("used_tweets", strArr used)])),
       [.fileRead, .fileWrite])
    ∧ ∃ j, save_used_tweets used (.json (.obj kvs)) =
          (some (.json j), [.fileRead, .fileWrite])
        ∧ j.getField "tweets" = (Json.obj kvs).getField "tweets"
        ∧ j.getField "used_tweets" = some (strArr used) := by
  refine ⟨rfl, rfl, ?_⟩
  obtain ⟨kvs2, hset, hself, hother⟩ := setKey_getField kvs "used_tweets" (strArr used)
  refine ⟨.obj kvs2, ?_, hother "tweets" (by decide), hself⟩
  simp only [save_used_tweets, hset]

/-- Claim C10: rewriting through the state writer preserves every
top-level field other than `used_tweets` — including fields unknown to
the program — unchanged. -/
theorem C10_save_preserves_other_fields (used : List String)
    (kvs : List (String × Json)) (k : String) (hk : k ≠ "used_tweets") :
    ∃ j, save_used_tweets used (.json (.obj kvs)) =
        (some (.json j), [.fileRead, .fileWrite])
      ∧ j.getField k = (Json.obj kvs).getField k := by
  obtain ⟨kvs2, hset, _, hother⟩ := setKey_getField kvs "used_tweets" (strArr used)
  refine ⟨.obj kvs2, ?_, hother k hk⟩
  simp only [save_used_tweets, hset]

/-- Witness for C10: a file holding an extra field `"extra"` unknown to
the program, preserved by the writer. -/
theorem C10_witness :
    ("extra" : String) ≠ "used_tweets" ∧
    ∃ j, save_used_tweets ["u"]
        (.json (.obj [("tweets", .arr []), ("extra", .null), ("used_tweets", .arr [])])) =
        (some (.json j), [.fileRead, .fileWrite])
      ∧ j.getField "extra" =
          (Json.obj [("tweets", .arr []), ("extra", .null),
            ("used_tweets", .arr [])]).getField "extra" :=
  ⟨by decide,
    C10_save_preserves_other_fields ["u"]
      [("tweets", .arr []), ("extra", .null), ("used_tweets", .arr [])]
      "extra" (by decide)⟩

lemma load_mkFile (pool used : List String) :
    load_tweets (mkFile pool used) =
      (some (strArr pool, strArr used), mkFile pool used, [.fileRead]) := rfl

lemma save_mkFile (new pool used : List String) :
    save_used_tweets new (mkFile pool used) =
      (some (mkFile pool new), [.fileRead, .fileWrite]) := rfl

lemma falsy_strArr_cons (a : String) (as : List String) :
    (strArr (a :: as)).falsy = false := rfl

/-- Claim C3: on a successful run the persisted used list equals the
used list in scope at selection time with exactly one element appended,
and that element is the message reported as published; the pool field
is untouched. -/
theorem C3_persist_appends_published (pool used : List String) (r : Nat)
    (env : String → Option String) (hpool : pool ≠ [])
    (henv : ∀ v ∈ required_vars, falsyEnv (env v) = false) :
    ∃ m, choice (selector pool used).1 r = some m
      ∧ main ⟨env, mkFile pool used, true, true, r⟩ =
          (.posted m, mkFile pool ((selector pool used).2 ++ [m]),
           [.fileRead, .netAuth, .netPost, .fileRead, .fileWrite]) := by
  obtain ⟨m, hm, _⟩ := choice_mem _ r (selector_fst_ne_nil pool used hpool)
  refine ⟨m, hm, ?_⟩
  have hfil : required_vars.filter (fun v => falsyEnv (env v)) = [] :=
    List.filter_eq_nil_iff.mpr (fun v hv => by simp [henv v hv])
  have hfalsy : (strArr pool).falsy = false := by
    cases pool with
    | nil => exact absurd rfl hpool
    | cons a as => exact falsy_strArr_cons a as
  simp [main, hfil, load_mkFile, asStrList_strArr, hfalsy, hm, save_mkFile]

/-- Witness for C3 at pool `["A", "B"]`, used `["A"]`, all credentials
set, oracle `0`. -/
theorem C3_witness :
    ((["A", "B"] : List String) ≠ []
      ∧ ∀ v ∈ required_vars, falsyEnv ((fun _ => some "x") v) = false)
    ∧ ∃ m, choice (selector ["A", "B"] ["A"]).1 0 = some m
      ∧ main ⟨fun _ => some "x", mkFile ["A", "B"] ["A"], true, true, 0⟩ =
          (.posted m, mkFile ["A", "B"] ((selector ["A", "B"] ["A"]).2 ++ [m]),
           [.fileRead, .netAuth, .netPost, .fileRead, .fileWrite]) :=
  ⟨⟨by decide, by decide⟩,
    C3_persist_appends_published ["A", "B"] ["A"] 0 (fun _ => some "x")
      (by decide) (by decide)⟩

/-- Claim C4: in every run where authentication fails or the publish
call fails, the state writer is never invoked: the trace holds no file
write and the backing file is unchanged. -/
theorem C4_no_write_on_failure (w : World) (out : RunOutcome)
    (fc : FileContent) (tr : List Event)
    (hrun : main w = (out, fc, tr))
    (hfail : out = .authFailed ∨ out = .publishFailed) :
    fc = w.file ∧ Event.fileWrite ∉ tr := by
  obtain ⟨env, file, authOk, publishOk, rand⟩ := w
  rcases hfail with rfl | rfl <;>
  · simp only [main] at hrun
    cases file with
    | missing =>
      simp only [load_tweets, create_sample_tweets_file] at hrun
      split at hrun <;> simp_all [Json.falsy]
    | invalid =>
      simp only [load_tweets] at hrun
      split at hrun <;> simp_all [Json.falsy]
    | json j =>
      cases j with
      | obj kvs =>
        simp only [load_tweets, Json.getD, save_used_tweets, Json.setKey] at hrun
        repeat' split at hrun
        all_goals simp_all
        all_goals rw [← hrun.2]
        all_goals decide
      | null => simp only [load_tweets, Json.getD] at hrun; split at hrun <;> simp_all
      | bool b => simp only [load_tweets, Json.getD] at hrun; split at hrun <;> simp_all
      | num n => simp only [load_tweets, Json.getD] at hrun; split at hrun <;> simp_all
      | str s => simp only [load_tweets, Json.getD] at hrun; split at hrun <;> simp_all
      | arr xs => simp only [load_tweets, Json.getD] at hrun; split at hrun <;> simp_all

/-- Witness for C4: authentication fails against a well-formed file. -/
theorem C4_witness :
    main ⟨fun _ => some "x", mkFile ["A"] [], false, true, 0⟩ =
      (.authFailed, mkFile ["A"] [], [.fileRead, .netAuth])
    ∧ (RunOutcome.authFailed = RunOutcome.authFailed
        ∨ RunOutcome.authFailed = RunOutcome.publishFailed)
    ∧ mkFile ["A"] [] = mkFile ["A"] []
    ∧ Event.fileWrite ∉ [Event.fileRead, Event.netAuth] :=
  ⟨rfl, Or.inl rfl,
    (C4_no_write_on_failure ⟨fun _ => some "x", mkFile ["A"] [], false, true, 0⟩
      .authFailed (mkFile ["A"] []) [.fileRead, .netAuth] rfl (Or.inl rfl)).1,
    (C4_no_write_on_failure ⟨fun _ => some "x", mkFile ["A"] [], false, true, 0⟩
      .authFailed (mkFile ["A"] []) [.fileRead, .netAuth] rfl (Or.inl rfl)).2⟩

/-- Witness for C9: `TWITTER_API_KEY` set to the empty string. -/
theorem C9_witness :
    ("TWITTER_API_KEY" ∈ required_vars
      ∧ (fun x => if x == "TWITTER_API_KEY" then some "" else some "x")
          "TWITTER_API_KEY" = some "")
    ∧ ∃ ms, main ⟨fun x => if x == "TWITTER_API_KEY" then some "" else some "x",
        .missing, true, true, 0⟩ =
          (.missingEnv ms, .missing, []) ∧ "TWITTER_API_KEY" ∈ ms :=
  ⟨⟨by decide, by decide⟩,
    C9_empty_string_env ⟨fun x => if x == "TWITTER_API_KEY" then some "" else some "x",
      .missing, true, true, 0⟩ "TWITTER_API_KEY" (by decide) (by decide)⟩

end TwitterBot
